import Mathlib

/-!
Verification of the remote-job-manager experiment pipeline.

Shallow embedding of `src/remote_job_manager/experiment_generator.py`,
`src/remote_job_manager/cli.py`, `src/remote_job_manager/remote.py` and
`src/remote_job_manager/job_launcher.py`.

Python dictionaries are modelled as association lists preserving insertion
order (Python 3.7+ dicts iterate in insertion order).  Python strings are
modelled as Lean `String` / `List Char`.  Python runtime values that can
flow through a parameter mapping are modelled by `PyVal`; a float is
represented by the decimal text that `str()` produces for it (the only
use the code makes of a float value is to interpolate `str(value)` into a
command string).
-/

/-- A Python runtime value as it appears in experiment / grid parameter
mappings.  `pyBool` is kept distinct from the other constructors because
`build_command` dispatches on `isinstance(value, bool)`. -/
inductive PyVal
  | pyBool (b : Bool)
  | pyStr (s : String)
  | pyInt (n : Int)
  | pyFloat (repr10 : String)
  deriving DecidableEq, Repr

/-- Python `str(value)` for a `PyVal`. -/
def pyValStr : PyVal → String
  | .pyBool true => "True"
  | .pyBool false => "False"
  | .pyStr s => s
  | .pyInt n => toString n
  | .pyFloat r => r

/-- Python `sep.join(parts)`. -/
def joinSep (sep : String) : List String → String
  | [] => ""
  | [x] => x
  | x :: y :: xs => x ++ sep ++ joinSep sep (y :: xs)

/-! ## experiment_generator.py -/

/-- The Cartesian product of a list of value lists, in the enumeration
order of `itertools.product(*values)`: the first list varies slowest. -/
def gridProduct : List (List PyVal) → List (List PyVal)
  | [] => [[]]
  | vs :: rest => vs.flatMap (fun v => (gridProduct rest).map (v :: ·))

/-- `generate_grid_combinations` (experiment_generator.py, lines 59-69):
`keys = grid_config.keys()`, `values = grid_config.values()`, then
`dict(zip(keys, combo)) for combo in product(*values)`.  A combination is
an association list pairing the grid keys, in order, with one product
tuple. -/
def generate_grid_combinations (grid_config : List (String × List PyVal)) :
    List (List (String × PyVal)) :=
  let keys := grid_config.map Prod.fst
  let values := grid_config.map Prod.snd
  (gridProduct values).map (fun combo => keys.zip combo)

/-- `build_command` (experiment_generator.py, lines 71-83): starts from
`cmd_parts = [base_command]`, appends `f"--{key}"` for a boolean `True`,
nothing for a boolean `False`, and `f"--{key} {value}"` otherwise, then
`" ".join(cmd_parts)`. -/
def build_command (base_command : String) (params : List (String × PyVal)) :
    String :=
  let cmd_parts := params.foldl
    (fun parts kv =>
      match kv.2 with
      | .pyBool b => if b then parts ++ ["--" ++ kv.1] else parts
      | v => parts ++ ["--" ++ kv.1 ++ " " ++ pyValStr v])
    [base_command]
  joinSep " " cmd_parts

/-- The base command chosen by `generate_jobs` (experiment_generator.py,
line 120): `experiment_config.get("script", "python main.py")`.  The value
is interpolated as a string; a non-string value is rendered through its
`str()` form. -/
def getScript (experiment_config : List (String × PyVal)) : String :=
  match experiment_config.lookup "script" with
  | some v => pyValStr v
  | none => "python main.py"

/-- The command strings of the jobs produced by `generate_jobs`
(experiment_generator.py, lines 118-121): one `build_command` call per
grid combination, with `params` being exactly the grid combination (the
fixed experiment parameters are not passed to `build_command`). -/
def generate_jobs_commands (experiment_config : List (String × PyVal))
    (grid_config : List (String × List PyVal)) : List String :=
  (generate_grid_combinations grid_config).map
    (fun params => build_command (getScript experiment_config) params)

/-! ## job_launcher.py -/

/-- `build_command` (job_launcher.py, lines 49-52):
`flags = [f"--{k}={v}" for k, v in params.items()]` and
`base_cmd + " " + " ".join(flags)`. -/
def jobLauncher_build_command (base_cmd : String)
    (params : List (String × PyVal)) : String :=
  let flags := params.map (fun kv => "--" ++ kv.1 ++ "=" ++ pyValStr kv.2)
  base_cmd ++ " " ++ joinSep " " flags

/-! ## Specification-side rendering of a single flag (for claim C4).
Written from the spec's words: a boolean `true` renders as a bare flag,
a boolean `false` renders as nothing, anything else as `--key value`. -/

/-- The flag (if any) that the spec says one parameter contributes. -/
def flagOfSpec (kv : String × PyVal) : Option String :=
  match kv.2 with
  | .pyBool true => some ("--" ++ kv.1)
  | .pyBool false => none
  | v => some ("--" ++ kv.1 ++ " " ++ pyValStr v)

/-! ## Helper lemmas -/

theorem build_command_foldl (params : List (String × PyVal))
    (acc : List String) :
    params.foldl
      (fun parts kv =>
        match kv.2 with
        | .pyBool b => if b then parts ++ ["--" ++ kv.1] else parts
        | v => parts ++ ["--" ++ kv.1 ++ " " ++ pyValStr v])
      acc = acc ++ params.filterMap flagOfSpec := by
  induction params generalizing acc with
  | nil => simp
  | cons kv rest ih =>
    obtain ⟨k, v⟩ := kv
    cases v with
    | pyBool b =>
      cases b <;> simp [List.foldl_cons, ih, flagOfSpec, List.filterMap_cons]
    | pyStr s => simp [List.foldl_cons, ih, flagOfSpec, List.filterMap_cons]
    | pyInt n => simp [List.foldl_cons, ih, flagOfSpec, List.filterMap_cons]
    | pyFloat r => simp [List.foldl_cons, ih, flagOfSpec, List.filterMap_cons]

/-- C4 — For every base command and parameter mapping, `build_command`
renders a boolean `true` as the bare flag `--key`, omits a boolean
`false` entirely, renders every other value as `--key value`, and emits
the flags in the mapping's iteration order: the produced command is the
base command followed by exactly the spec-prescribed flags, joined by
single spaces, in mapping order. -/
theorem claim_C4 (base_command : String) (params : List (String × PyVal)) :
    build_command base_command params =
      joinSep " " (base_command :: params.filterMap flagOfSpec) := by
  unfold build_command
  rw [build_command_foldl]
  rfl

/-- C1 — The claim says grid expansion must reject a GridConfig with an
empty value list before expansion.  The code has no such check:
`generate_grid_combinations` silently returns zero combinations, both for
a grid whose only key has an empty list and for a grid where one of
several keys has an empty list.  This theorem evaluates the code at the
failing inputs. -/
theorem claim_C1 :
    generate_grid_combinations [("a", [])] = [] ∧
      generate_grid_combinations
        [("lr", [.pyFloat "0.1", .pyFloat "0.01"]), ("seed", [])] = [] := by
  constructor <;> rfl

/-- C3 (counterexample) — For GridConfig `{lr: [0.1, 0.01], seed: [1, 2]}`
and ExperimentConfig `{script: "train", batch: 32}`, the claim says job 0
has command `train --batch 32 --lr 0.1 --seed 1`.  In `generate_jobs` the
fixed experiment parameters are never passed to `build_command`, so job 0
is `train --lr 0.1 --seed 1`; the Hydra launcher path would include
`batch` but renders `--key=value`, which does not match either. -/
theorem claim_C3_counterexample :
    ((generate_jobs_commands
        [("script", .pyStr "train"), ("batch", .pyInt 32)]
        [("lr", [.pyFloat "0.1", .pyFloat "0.01"]),
         ("seed", [.pyInt 1, .pyInt 2])]).getD 0 ""
      ≠ "train --batch 32 --lr 0.1 --seed 1") ∧
      jobLauncher_build_command "train"
        [("batch", .pyInt 32), ("lr", .pyFloat "0.1"), ("seed", .pyInt 1)]
        = "train --batch=32 --lr=0.1 --seed=1" := by
  constructor
  · decide
  · rfl

/-- C3 (amended) — For GridConfig `{lr: [0.1, 0.01], seed: [1, 2]}` and
ExperimentConfig `{script: "train", batch: 32}`, `generate_jobs` produces
exactly 4 jobs; the fixed experiment parameters other than `script` are
not included in the command, so job 0 has command `train --lr 0.1 --seed 1`
and job 3 has command `train --lr 0.01 --seed 2`. -/
theorem claim_C3 :
    generate_jobs_commands
        [("script", .pyStr "train"), ("batch", .pyInt 32)]
        [("lr", [.pyFloat "0.1", .pyFloat "0.01"]),
         ("seed", [.pyInt 1, .pyInt 2])]
      = ["train --lr 0.1 --seed 1", "train --lr 0.1 --seed 2",
         "train --lr 0.01 --seed 1", "train --lr 0.01 --seed 2"] := by
  rfl

/-! ## Grid product structure (claim C2) -/

def suffixProd (ls : List (List PyVal)) (i : Nat) : Nat :=
  ((ls.drop i).map List.length).prod

theorem gridProduct_length (ls : List (List PyVal)) :
    (gridProduct ls).length = (ls.map List.length).prod := by
  induction ls with
  | nil => rfl
  | cons vs rest ih =>
    simp [gridProduct, List.length_flatMap, Function.comp_def, ih,
      List.map_const', List.sum_replicate, smul_eq_mul, Nat.mul_comm]

theorem gridProduct_mem_length (ls : List (List PyVal)) :
    ∀ c ∈ gridProduct ls, c.length = ls.length := by
  induction ls with
  | nil => intro c hc; simp [gridProduct] at hc; simp [hc]
  | cons vs rest ih =>
    intro c hc
    simp only [gridProduct, List.mem_flatMap, List.mem_map] at hc
    obtain ⟨v, _, combo, hcombo, rfl⟩ := hc
    simp [ih combo hcombo]

theorem getD_map_of_lt {α β : Type} (f : α → β) (l : List α) (j : Nat)
    (h : j < l.length) (d : β) (d' : α) : (l.map f).getD j d = f (l.getD j d') := by
  rw [List.getD_eq_getElem _ _ (by simpa), List.getElem_map,
    List.getD_eq_getElem _ _ h]

theorem flatMap_block_getD (vs : List PyVal) (P : List (List PyVal)) (j : Nat)
    (h : j < vs.length * P.length) :
    (vs.flatMap fun v => P.map (v :: ·)).getD j [] =
      (vs.getD (j / P.length) (.pyStr "")) :: P.getD (j % P.length) [] := by
  induction vs generalizing j with
  | nil => simp at h
  | cons v vs' ih =>
    have hL : 0 < P.length := by
      rcases Nat.eq_zero_or_pos P.length with h0 | h0
      · rw [h0, Nat.mul_zero] at h; omega
      · exact h0
    rw [List.flatMap_cons]
    rcases Nat.lt_or_ge j P.length with hj | hj
    · rw [List.getD_append _ _ _ _ (by simpa), getD_map_of_lt _ _ _ hj _ [],
        Nat.div_eq_of_lt hj, Nat.mod_eq_of_lt hj]
      rfl
    · rw [List.getD_append_right _ _ _ _ (by simpa)]
      simp only [List.length_map]
      have hcons : (v :: vs').length * P.length
          = P.length + vs'.length * P.length := by
        simp [List.length_cons, Nat.succ_mul, Nat.add_comm]
      have hb : j - P.length < vs'.length * P.length := by
        rw [Nat.sub_lt_iff_lt_add hj, ← hcons]
        exact h
      rw [ih _ hb]
      obtain ⟨r, rfl⟩ : ∃ r, j = r + P.length :=
        ⟨j - P.length, (Nat.sub_add_cancel hj).symm⟩
      rw [Nat.add_sub_cancel, Nat.add_div_right _ hL, Nat.add_mod_right]
      simp [List.getD_cons_succ]

theorem suffixProd_dvd (rest : List (List PyVal)) (i : Nat)
    (hi : i < rest.length) :
    ((rest.getD i []).length * suffixProd rest (i + 1)) ∣
      (rest.map List.length).prod := by
  induction rest generalizing i with
  | nil => simp at hi
  | cons r0 rest' ih =>
    cases i with
    | zero =>
      simp only [List.getD_cons_zero, suffixProd, List.drop_succ_cons,
        List.drop_zero, List.map_cons, List.prod_cons]
      exact dvd_refl _
    | succ i' =>
      have hi' : i' < rest'.length := by simpa using hi
      have := ih i' hi'
      simp only [List.getD_cons_succ, suffixProd, List.drop_succ_cons,
        List.map_cons, List.prod_cons]
      exact Dvd.dvd.mul_left this _

theorem mod_div_mod_eq (j M P' len : Nat) (hP' : 0 < P')
    (hdvd : (len * P') ∣ M) :
    ((j % M) / P') % len = (j / P') % len := by
  obtain ⟨A, hA⟩ := hdvd
  have hj : j = (j % M) + (len * (A * (j / M))) * P' := by
    conv_lhs => rw [← Nat.mod_add_div j M]
    rw [hA]; ring
  conv_rhs => rw [hj]
  rw [Nat.add_mul_div_right _ _ hP', Nat.add_mul_mod_self_left]

theorem gridProduct_getD (ls : List (List PyVal)) :
    ∀ j, j < (ls.map List.length).prod → ∀ i, i < ls.length →
      ((gridProduct ls).getD j []).getD i (.pyStr "") =
        (ls.getD i []).getD
          ((j / suffixProd ls (i + 1)) % (ls.getD i []).length) (.pyStr "") := by
  induction ls with
  | nil => intro j hj i hi; simp at hi
  | cons vs rest ih =>
    intro j hj i hi
    have hM : (gridProduct rest).length = (rest.map List.length).prod :=
      gridProduct_length rest
    have hjN : j < vs.length * (gridProduct rest).length := by
      rw [hM]
      simpa [List.map_cons, List.prod_cons] using hj
    have hMpos : 0 < (gridProduct rest).length := by
      rcases Nat.eq_zero_or_pos (gridProduct rest).length with h0 | h0
      · rw [h0, Nat.mul_zero] at hjN; omega
      · exact h0
    show ((vs.flatMap fun v => (gridProduct rest).map (v :: ·)).getD j []).getD
        i (.pyStr "") = _
    rw [flatMap_block_getD vs (gridProduct rest) j hjN]
    cases i with
    | zero =>
      have hsuff : suffixProd (vs :: rest) 1 = (gridProduct rest).length := by
        rw [hM]; rfl
      have hdiv : j / (gridProduct rest).length < vs.length :=
        (Nat.div_lt_iff_lt_mul hMpos).mpr hjN
      rw [List.getD_cons_zero, hsuff, List.getD_cons_zero,
        Nat.mod_eq_of_lt hdiv]
    | succ i' =>
      have hi' : i' < rest.length := by simpa using hi
      have hmod : j % (gridProduct rest).length < (rest.map List.length).prod := by
        rw [← hM]; exact Nat.mod_lt _ hMpos
      rw [List.getD_cons_succ, ih _ hmod i' hi', List.getD_cons_succ]
      have hsuff : suffixProd (vs :: rest) (i' + 2) = suffixProd rest (i' + 1) := rfl
      rw [hsuff, hM]
      have hdvd := suffixProd_dvd rest i' hi'
      have hP' : 0 < suffixProd rest (i' + 1) := by
        rcases Nat.eq_zero_or_pos (suffixProd rest (i' + 1)) with h0 | h0
        · rw [h0, Nat.mul_zero] at hdvd
          have := Nat.eq_zero_of_zero_dvd hdvd
          rw [← hM] at this
          omega
        · exact h0
      rw [mod_div_mod_eq _ _ _ _ hP' hdvd]

theorem generate_grid_combinations_length (grid : List (String × List PyVal)) :
    (generate_grid_combinations grid).length
      = (grid.map (fun kv => kv.2.length)).prod := by
  unfold generate_grid_combinations
  simp [gridProduct_length, List.map_map, Function.comp_def]

theorem getD_zip {α β : Type} (l1 : List α) (l2 : List β) (i : Nat)
    (h1 : i < l1.length) (h2 : i < l2.length) (d1 : α) (d2 : β) :
    (l1.zip l2).getD i (d1, d2) = (l1.getD i d1, l2.getD i d2) := by
  have hz : i < (l1.zip l2).length := by
    rw [List.length_zip]; omega
  rw [List.getD_eq_getElem _ _ hz, List.getElem_zip,
    List.getD_eq_getElem _ _ h1, List.getD_eq_getElem _ _ h2]

/-- C2 — For every GridConfig with keys `k1..kn` mapped to value lists
`v1..vn`, `generate_grid_combinations` produces exactly
`|v1| * ... * |vn|` combinations; each combination is a total mapping
assigning a value to every key in GridConfig key order; the `j`-th
combination assigns to the `i`-th key the value
`v_i[(j / (|v_{i+1}| * ... * |v_n|)) % |v_i|]`, i.e. the enumeration is
the standard product order with the first key varying slowest; and the
empty GridConfig yields exactly one combination, the empty mapping. -/
theorem claim_C2 (grid : List (String × List PyVal)) :
    (generate_grid_combinations grid).length
        = (grid.map (fun kv => kv.2.length)).prod
    ∧ (∀ c ∈ generate_grid_combinations grid,
        c.map Prod.fst = grid.map Prod.fst)
    ∧ (∀ j, j < (generate_grid_combinations grid).length →
        ∀ i, i < grid.length →
          ((generate_grid_combinations grid).getD j []).getD i ("", .pyStr "")
            = ((grid.getD i ("", [])).1,
                (grid.getD i ("", [])).2.getD
                  ((j / suffixProd (grid.map Prod.snd) (i + 1))
                    % (grid.getD i ("", [])).2.length) (.pyStr "")))
    ∧ generate_grid_combinations [] = [[]] := by
  refine ⟨generate_grid_combinations_length grid, ?_, ?_, rfl⟩
  · intro c hc
    unfold generate_grid_combinations at hc
    simp only [List.mem_map] at hc
    obtain ⟨combo, hcombo, rfl⟩ := hc
    have hlen : combo.length = grid.length := by
      rw [gridProduct_mem_length _ _ hcombo, List.length_map]
    exact List.map_fst_zip _ _ (by simp [hlen])
  · intro j hj i hi
    have hj' : j < (gridProduct (grid.map Prod.snd)).length := by
      unfold generate_grid_combinations at hj
      simpa using hj
    have hjp : j < ((grid.map Prod.snd).map List.length).prod := by
      rw [← gridProduct_length]; exact hj'
    have hi' : i < (grid.map Prod.snd).length := by simpa using hi
    have h1 : (generate_grid_combinations grid).getD j []
        = (grid.map Prod.fst).zip ((gridProduct (grid.map Prod.snd)).getD j []) := by
      unfold generate_grid_combinations
      exact getD_map_of_lt _ _ _ hj' _ []
    have hmem : (gridProduct (grid.map Prod.snd)).getD j []
        ∈ gridProduct (grid.map Prod.snd) := by
      rw [List.getD_eq_getElem _ _ hj']
      exact List.getElem_mem hj'
    have hclen : ((gridProduct (grid.map Prod.snd)).getD j []).length
        = grid.length := by
      rw [gridProduct_mem_length _ _ hmem, List.length_map]
    rw [h1, getD_zip (grid.map Prod.fst)
      ((gridProduct (grid.map Prod.snd)).getD j []) i
      (by simpa using hi) (by rw [hclen]; exact hi) "" (PyVal.pyStr "")]
    rw [gridProduct_getD _ j hjp i hi']
    rw [getD_map_of_lt Prod.fst grid i hi "" ("", []),
      getD_map_of_lt Prod.snd grid i hi [] ("", [])]


/-- Witness for C2 at the grid `{lr: [0.1, 0.01], seed: [1, 2]}`:
combination 2 assigns the second `lr` value and the first `seed` value. -/
theorem claim_C2_witness :
    ((generate_grid_combinations
        [("lr", [.pyFloat "0.1", .pyFloat "0.01"]),
         ("seed", [.pyInt 1, .pyInt 2])]).getD 2 []).getD 0 ("", .pyStr "")
      = ("lr", .pyFloat "0.01") := by
  have h := (claim_C2
    [("lr", [.pyFloat "0.1", .pyFloat "0.01"]),
     ("seed", [.pyInt 1, .pyInt 2])]).2.2.1 2 (by decide) 0 (by decide)
  rw [h]
  decide

/-! ## remote.py and the dispatcher in cli.py -/

/-- A `RemoteTarget` record as stored under `config["remotes"]`
(cli.py, `configure`): host, user and port are always present;
`remote_base_path` is read with
`.get("remote_base_path", "~/remote-job-manager-workspace")`, so it is
optional; `init_commands` is read with `.get("init_commands", [])`, so an
absent key behaves exactly like an empty list and is modelled by `[]`. -/
structure RemoteConfig where
  host : String
  user : String
  port : Nat
  remote_base_path : Option String
  init_commands : List String
  deriving DecidableEq, Repr

/-- The project configuration as far as dispatching needs it: the
optional `remotes` mapping (the key `"remotes"` may be absent from the
loaded YAML dictionary, hence the `Option`). -/
structure ProjectConfig where
  remotes : Option (List (String × RemoteConfig))
  deriving Repr

/-- `config["remotes"][remote]` guarded by
`"remotes" not in config or remote not in config["remotes"]`. -/
def lookupRemote (config : ProjectConfig) (remote : String) :
    Option RemoteConfig :=
  config.remotes.bind (List.lookup remote)

/-- The shell command sent to the remote host by `run_remote_command`
(remote.py, lines 13-16): with a non-empty `init_commands` list the
command becomes `" && ".join(init_commands) + " && " + command`,
otherwise it is passed through unchanged. -/
def remoteShellCommand (init_commands : List String) (command : String) :
    String :=
  if init_commands ≠ [] then
    joinSep " && " init_commands ++ " && " ++ command
  else
    command

/-- The `ssh` argument vector built by `run_remote_command`
(remote.py, lines 18-25). -/
def sshArgv (rc : RemoteConfig) (command : String) : List String :=
  ["ssh", "-A", rc.user ++ "@" ++ rc.host, "-p", toString rc.port,
   "-o", "StrictHostKeyChecking=no",
   remoteShellCommand rc.init_commands command]

/-- The observable effects the dispatcher can perform. -/
inductive DispatchEffect
  | syncProject (rc : RemoteConfig) (projectName : String)
  | runRemote (rc : RemoteConfig) (command : String)
  deriving DecidableEq, Repr

/-- How the dispatcher terminates. -/
inductive DispatchOutcome
  | proceedLocally
  | exitError (code : Nat) (msg : String)
  | exitClean
  deriving DecidableEq, Repr

/-- `dispatch_to_remote_if_needed` (cli.py, lines 97-121), as a function
from the CLI inputs and the loaded project configuration to the ordered
list of external effects it performs plus its outcome.  Python's
`if not remote: return` is also taken for an empty string, which is
falsy. -/
def dispatch_to_remote_if_needed (invokedSubcommand projectName : String)
    (remote : Option String) (config : ProjectConfig) :
    List DispatchEffect × DispatchOutcome :=
  match remote with
  | none => ([], .proceedLocally)
  | some r =>
    if r = "" then ([], .proceedLocally)
    else
      match lookupRemote config r with
      | none =>
        ([], .exitError 1
          ("Error: Remote \x27" ++ r ++ "\x27 not configured for project \x27"
            ++ projectName ++ "\x27."))
      | some rc =>
        let remote_base_path :=
          rc.remote_base_path.getD "~/remote-job-manager-workspace"
        let remote_project_dir := remote_base_path ++ "/" ++ projectName
        let command_str := "cd " ++ remote_project_dir ++ " && job-manager "
          ++ invokedSubcommand ++ " --project-name " ++ projectName
        ([.syncProject rc projectName, .runRemote rc command_str],
          .exitClean)

/-- C7 — Dispatching to a remote name that is not registered in the
project's `remotes` mapping produces no sync effect and no remote
command, and terminates with exit code 1 and an error message naming the
unknown remote. -/
theorem claim_C7 (invokedSubcommand projectName r : String)
    (config : ProjectConfig) (hr : r ≠ "")
    (hlook : lookupRemote config r = none) :
    dispatch_to_remote_if_needed invokedSubcommand projectName
        (some r) config
      = ([], .exitError 1
          ("Error: Remote \x27" ++ r ++ "\x27 not configured for project \x27"
            ++ projectName ++ "\x27.")) := by
  simp only [dispatch_to_remote_if_needed, if_neg hr, hlook]

/-- Witness for C7: dispatching `build` for project `proj` to the
unregistered remote `mila` syncs nothing, runs nothing remotely, and
exits with code 1 naming `mila`. -/
theorem claim_C7_witness :
    dispatch_to_remote_if_needed "build" "proj" (some "mila")
        ⟨some [("cluster1",
          ⟨"host1", "user1", 22, none, []⟩)]⟩
      = ([], .exitError 1
          "Error: Remote \x27mila\x27 not configured for project \x27proj\x27.") := by
  have h := claim_C7 "build" "proj" "mila"
    ⟨some [("cluster1", ⟨"host1", "user1", 22, none, []⟩)]⟩
    (by decide) (by decide)
  rw [h]
  decide

theorem joinSep_append_last (sep x : String) :
    ∀ l : List String, l ≠ [] →
      joinSep sep (l ++ [x]) = joinSep sep l ++ sep ++ x := by
  intro l
  induction l with
  | nil => intro h; exact absurd rfl h
  | cons a l' ih =>
    intro _
    cases l' with
    | nil => simp [joinSep]
    | cons b l'' =>
      have h2 := ih (by simp)
      simp only [List.cons_append, List.append_eq, joinSep] at h2 ⊢
      rw [h2]
      simp [String.append_assoc]

/-- C8 — The single command string handed to the remote shell is the
initialization commands and the target command joined by the
short-circuiting `&&` operator (for an empty initialization list that is
the target command unchanged); in particular `["source env.sh"]` with
target `run.sh` yields `source env.sh && run.sh`; and that joined string
is the final (command) argument of the `ssh` invocation. -/
theorem claim_C8 :
    (∀ (init_commands : List String) (command : String),
        remoteShellCommand init_commands command
          = joinSep " && " (init_commands ++ [command]))
    ∧ remoteShellCommand ["source env.sh"] "run.sh"
        = "source env.sh && run.sh"
    ∧ (∀ (rc : RemoteConfig) (command : String),
        (sshArgv rc command).getLast?
          = some (remoteShellCommand rc.init_commands command)) := by
  refine ⟨?_, rfl, ?_⟩
  · intro init_commands command
    cases init_commands with
    | nil => simp [remoteShellCommand, joinSep]
    | cons a l =>
      rw [remoteShellCommand, if_pos (by simp),
        joinSep_append_last " && " command (a :: l) (by simp)]
  · intro rc command
    rfl

/-! ## run_remote_command error handling (remote.py, lines 29-46) -/

/-- How the spawned `ssh` subprocess can end, as far as
`run_remote_command` observes it: `subprocess.Popen` raises
`FileNotFoundError` when the `ssh` binary is absent, otherwise the
process is waited on and yields a return code. -/
inductive SpawnResult
  | fileNotFound
  | completed (returncode : Int)
  deriving DecidableEq, Repr

/-- The exceptions that can escape the `try` body of
`run_remote_command`. -/
inductive PyExc
  | calledProcessError (returncode : Int)
  | fileNotFoundError
  deriving DecidableEq, Repr

/-- The `try` body (remote.py, lines 29-40): stream the output, wait,
and `raise subprocess.CalledProcessError(process.returncode, ...)` when
the return code is non-zero. -/
def run_remote_body (spawn : SpawnResult) : Except PyExc Unit :=
  match spawn with
  | .fileNotFound => .error .fileNotFoundError
  | .completed rc => if rc ≠ 0 then .error (.calledProcessError rc) else .ok ()

/-- What `run_remote_command` surfaces to its caller. -/
inductive RemoteRunOutcome
  | success
  | remoteFailure (returncode : Int) (msg : String)
  | sshMissing (msg : String)
  deriving DecidableEq, Repr

/-- The `except` handlers (remote.py, lines 41-46): a
`FileNotFoundError` becomes the missing-`ssh` configuration error, a
`CalledProcessError` becomes a failure message carrying
`e.returncode`; both then `raise typer.Exit(code=1)`. -/
def run_remote_command_outcome (spawn : SpawnResult) : RemoteRunOutcome :=
  match run_remote_body spawn with
  | .ok _ => .success
  | .error .fileNotFoundError =>
    .sshMissing ("Error: \x27ssh\x27 command not found. "
      ++ "Please ensure OpenSSH client is installed and in your PATH.")
  | .error (.calledProcessError rc) =>
    .remoteFailure rc
      ("\nError executing remote command. Return code: " ++ toString rc)

/-- C9 — A remote process exiting with a non-zero code `c` is surfaced
as a failure carrying exactly `c`; a missing local `ssh` binary is
surfaced as a distinct configuration error, never as a remote execution
failure. -/
theorem claim_C9 (c : Int) (hc : c ≠ 0) :
    run_remote_command_outcome (.completed c)
        = .remoteFailure c
            ("\nError executing remote command. Return code: " ++ toString c)
      ∧ run_remote_command_outcome .fileNotFound
        = .sshMissing ("Error: \x27ssh\x27 command not found. "
            ++ "Please ensure OpenSSH client is installed and in your PATH.")
      ∧ (∀ (c' : Int) (m m' : String),
          RemoteRunOutcome.remoteFailure c' m ≠ .sshMissing m') := by
  refine ⟨?_, rfl, ?_⟩
  · simp [run_remote_command_outcome, run_remote_body, hc]
  · intro c' m m' h
    exact RemoteRunOutcome.noConfusion h

/-- Witness for C9: a remote exit code 17 is surfaced carrying 17. -/
theorem claim_C9_witness :
    run_remote_command_outcome (.completed 17)
      = .remoteFailure 17
          "\nError executing remote command. Return code: 17" := by
  have h := (claim_C9 17 (by decide)).1
  rw [h]
  rfl

/-! ## The grid-configuration wizard value parsing (cli.py, lines 731-733) -/

/-- Python default whitespace as stripped by `str.strip()`. -/
def isPySpace (c : Char) : Bool :=
  c == ' ' || c == '\t' || c == '\n' || c == '\r' || c == '\x0b' || c == '\x0c'

/-- Python `s.strip()`. -/
def pyStrip (s : List Char) : List Char :=
  ((s.dropWhile isPySpace).reverse.dropWhile isPySpace).reverse

/-- Python `s.split(sep)` for a one-character separator: splits at every
occurrence, keeping empty pieces (`"".split(",") == [""]`). -/
def pySplit (sep : Char) (s : List Char) : List (List Char) :=
  s.foldr
    (fun c acc =>
      match acc with
      | [] => [[c]]
      | cur :: done =>
        if c = sep then [] :: cur :: done else (c :: cur) :: done)
    [[]]

/-- `_create_grid_config` (cli.py, lines 731-733):
`values = [v.strip() for v in value_str.split(",")]` — every grid value
entered through the wizard is a Python `str`. -/
def parseGridValues (value_str : String) : List PyVal :=
  (pySplit ',' value_str.data).map (fun v => .pyStr (pyStrip v).asString)

/-- C10 — `build_command` is sensitive to the runtime type only: a
string-valued parameter always renders as `--key value`, even when the
string is `"false"` or `"true"`; omission and bare-flag rendering happen
only for actual booleans; and every grid value produced by the
grid-configuration wizard is a string, so a swept parameter entered as
`false` renders as `--key false`. -/
theorem claim_C10 :
    (∀ base key s : String,
        build_command base [(key, .pyStr s)]
          = base ++ " " ++ ("--" ++ key ++ " " ++ s))
    ∧ build_command "train" [("flag", .pyStr "false")] = "train --flag false"
    ∧ build_command "train" [("flag", .pyStr "true")] = "train --flag true"
    ∧ build_command "train" [("flag", .pyBool false)] = "train"
    ∧ build_command "train" [("flag", .pyBool true)] = "train --flag"
    ∧ (∀ value_str : String, ∀ v ∈ parseGridValues value_str,
        ∃ s, v = .pyStr s)
    ∧ parseGridValues "false" = [.pyStr "false"] := by
  refine ⟨?_, rfl, rfl, rfl, rfl, ?_, by decide⟩
  · intro base key s
    rfl
  · intro value_str v hv
    simp only [parseGridValues, List.mem_map] at hv
    obtain ⟨w, _, rfl⟩ := hv
    exact ⟨_, rfl⟩

/-- Witness for C10: the wizard value `false` is parsed as the string
`"false"`, and a string-valued `false` renders as `--flag false`. -/
theorem claim_C10_witness :
    (∃ s, PyVal.pyStr "false" = PyVal.pyStr s)
    ∧ build_command "train" [("flag", PyVal.pyStr "false")]
        = "train" ++ " " ++ ("--" ++ "flag" ++ " " ++ "false") := by
  constructor
  · exact claim_C10.2.2.2.2.2.1 "false" (.pyStr "false") (by decide)
  · exact claim_C10.1 "train" "flag" "false"

/-! ## JobWriter file naming (claim C5), experiment_generator.py lines 141-142 -/

def digitChar (d : Nat) : Char := Char.ofNat (48 + d)

def decDigitsAux : Nat → Nat → List Nat
  | 0, _ => []
  | _ + 1, 0 => []
  | fuel + 1, n + 1 => ((n + 1) % 10) :: decDigitsAux fuel ((n + 1) / 10)

def decDigits (n : Nat) : List Nat := decDigitsAux n n

theorem decDigitsAux_fuel : ∀ f g n, n ≤ f → n ≤ g →
    decDigitsAux f n = decDigitsAux g n := by
  intro f
  induction f with
  | zero =>
    intro g n hf _
    interval_cases n
    cases g <;> rfl
  | succ f' ih =>
    intro g n hf hg
    match n, g with
    | 0, 0 => rfl
    | 0, g' + 1 => rfl
    | m + 1, g' + 1 =>
      show ((m + 1) % 10) :: decDigitsAux f' ((m + 1) / 10)
        = ((m + 1) % 10) :: decDigitsAux g' ((m + 1) / 10)
      rw [ih g' ((m + 1) / 10) (by omega) (by omega)]

theorem decDigits_pos (n : Nat) (hn : 0 < n) :
    decDigits n = (n % 10) :: decDigits (n / 10) := by
  obtain ⟨m, rfl⟩ : ∃ m, n = m + 1 := ⟨n - 1, by omega⟩
  show ((m + 1) % 10) :: decDigitsAux m ((m + 1) / 10) = _
  rw [decDigitsAux_fuel m ((m + 1) / 10) ((m + 1) / 10) (by omega) le_rfl]
  rfl

def pyNatRepr (n : Nat) : List Char :=
  if n = 0 then ['0'] else (decDigits n).reverse.map digitChar

def format04 (n : Nat) : List Char :=
  List.replicate (4 - (pyNatRepr n).length) '0' ++ pyNatRepr n

def runFileName (i : Nat) : List Char :=
  "run_".data ++ format04 i ++ ".slurm".data

def lexLt : List Char → List Char → Bool
  | [], [] => false
  | [], _ :: _ => true
  | _ :: _, [] => false
  | a :: as, b :: bs =>
    if a < b then true else if b < a then false else lexLt as bs

theorem digitChar_lt_iff : ∀ d1 : Nat, d1 < 10 → ∀ d2 : Nat, d2 < 10 →
    ((digitChar d1 < digitChar d2) ↔ d1 < d2) := by decide

theorem digitChar_zero : digitChar 0 = '0' := rfl

theorem format04_eq_digits (i : Nat) (hi : i < 10000) :
    format04 i = [digitChar (i / 1000), digitChar (i / 100 % 10),
      digitChar (i / 10 % 10), digitChar (i % 10)] := by
  rcases Nat.eq_zero_or_pos i with rfl | hpos
  · rfl
  rcases Nat.lt_or_ge i 10 with h1 | h1
  · have hL : format04 i = ['0', '0', '0', digitChar i] := by
      rw [format04, pyNatRepr, if_neg (by omega), decDigits_pos i hpos,
        show i / 10 = 0 from by omega, show decDigits 0 = [] from rfl,
        show i % 10 = i from by omega]
      rfl
    rw [hL, show i / 1000 = 0 from by omega, show i / 100 % 10 = 0 from by omega,
      show i / 10 % 10 = 0 from by omega, show i % 10 = i from by omega,
      digitChar_zero]
  · rcases Nat.lt_or_ge i 100 with h2 | h2
    · have hL : format04 i = ['0', '0', digitChar (i / 10), digitChar (i % 10)] := by
        rw [format04, pyNatRepr, if_neg (by omega), decDigits_pos i hpos,
          decDigits_pos (i / 10) (by omega),
          show i / 10 / 10 = 0 from by omega, show decDigits 0 = [] from rfl,
          show i / 10 % 10 = i / 10 from by omega]
        rfl
      rw [hL, show i / 1000 = 0 from by omega,
        show i / 100 % 10 = 0 from by omega,
        show i / 10 % 10 = i / 10 from by omega, digitChar_zero]
    · rcases Nat.lt_or_ge i 1000 with h3 | h3
      · have hL : format04 i
            = ['0', digitChar (i / 100 % 10), digitChar (i / 10 % 10),
               digitChar (i % 10)] := by
          rw [format04, pyNatRepr, if_neg (by omega), decDigits_pos i hpos,
            decDigits_pos (i / 10) (by omega),
            decDigits_pos (i / 10 / 10) (by omega),
            show i / 10 / 10 / 10 = 0 from by omega,
            show decDigits 0 = [] from rfl,
            show i / 10 / 10 = i / 100 from by omega]
          rfl
        rw [hL, show i / 1000 = 0 from by omega, digitChar_zero]
      · have hL : format04 i
            = [digitChar (i / 1000), digitChar (i / 100 % 10),
               digitChar (i / 10 % 10), digitChar (i % 10)] := by
          rw [format04, pyNatRepr, if_neg (by omega), decDigits_pos i hpos,
            decDigits_pos (i / 10) (by omega),
            decDigits_pos (i / 10 / 10) (by omega),
            decDigits_pos (i / 10 / 10 / 10) (by omega),
            show i / 10 / 10 / 10 / 10 = 0 from by omega,
            show decDigits 0 = [] from rfl,
            show i / 10 / 10 / 10 = i / 1000 from by omega,
            show i / 10 / 10 = i / 100 from by omega,
            show i / 1000 % 10 = i / 1000 from by omega]
          rfl
        rw [hL]

theorem lexLt_irrefl : ∀ a : List Char, lexLt a a = false := by
  intro a
  induction a with
  | nil => rfl
  | cons c cs ih => simp [lexLt, ih, lt_irrefl]

theorem ne_of_lexLt (a b : List Char) (h : lexLt a b = true) : a ≠ b := by
  intro he
  subst he
  rw [lexLt_irrefl] at h
  exact Bool.noConfusion h

theorem lexLt_append_same : ∀ p a b : List Char,
    lexLt (p ++ a) (p ++ b) = lexLt a b := by
  intro p
  induction p with
  | nil => intro a b; rfl
  | cons c cs ih => intro a b; simp [lexLt, ih, lt_irrefl]

theorem lexLt_append_of_lt : ∀ a b s t : List Char, a.length = b.length →
    lexLt a b = true → lexLt (a ++ s) (b ++ t) = true := by
  intro a
  induction a with
  | nil =>
    intro b s t hl h
    have hb : b = [] := by
      cases b with
      | nil => rfl
      | cons y b' => simp at hl
    subst hb
    simp [lexLt] at h
  | cons x a' ih =>
    intro b s t hl h
    cases b with
    | nil => simp at hl
    | cons y b' =>
      simp only [List.cons_append, lexLt] at h ⊢
      by_cases hxy : x < y
      · rw [if_pos hxy]
      · rw [if_neg hxy] at h ⊢
        by_cases hyx : y < x
        · rw [if_pos hyx] at h
          exact absurd h (by simp)
        · rw [if_neg hyx] at h ⊢
          exact ih b' s t (by simpa using hl) h

theorem lexLt_digit_cons (d1 d2 : Nat) (h1 : d1 < 10) (h2 : d2 < 10)
    (a b : List Char) :
    lexLt (digitChar d1 :: a) (digitChar d2 :: b)
      = if d1 < d2 then true else if d2 < d1 then false else lexLt a b := by
  rcases Nat.lt_trichotomy d1 d2 with h | h | h
  · rw [lexLt, if_pos ((digitChar_lt_iff d1 h1 d2 h2).mpr h), if_pos h]
  · subst h
    rw [lexLt, if_neg (lt_irrefl _), if_neg (lt_irrefl _),
      if_neg (lt_irrefl _), if_neg (lt_irrefl _)]
  · rw [lexLt, if_neg (by rw [digitChar_lt_iff d1 h1 d2 h2]; omega),
      if_pos ((digitChar_lt_iff d2 h2 d1 h1).mpr h), if_neg (by omega),
      if_pos h]

theorem format04_lexLt (i j : Nat) (hij : i < j) (hj : j < 10000) :
    lexLt (format04 i) (format04 j) = true := by
  have hi : i < 10000 := by omega
  rw [format04_eq_digits i hi, format04_eq_digits j hj,
    lexLt_digit_cons _ _ (by omega) (by omega),
    lexLt_digit_cons _ _ (by omega) (by omega),
    lexLt_digit_cons _ _ (by omega) (by omega),
    lexLt_digit_cons _ _ (by omega) (by omega),
    show lexLt [] [] = false from rfl]
  split_ifs <;> first | rfl | omega

/-- C5 — For every sweep of `N` combinations with `N ≤ 10000`, the job
writer produces `N` distinct file names `run_<index>.slurm` with the
index zero-padded to width 4 (sufficient for up to 10000 jobs), and the
lexicographic order of the generated file names equals their generation
order: for any two generation indices `i < j < N` the `i`-th name sorts
strictly before the `j`-th and the names differ. -/
theorem claim_C5 (N i j : Nat) (hN : N ≤ 10000) (hij : i < j) (hjN : j < N) :
    lexLt (runFileName i) (runFileName j) = true
      ∧ runFileName i ≠ runFileName j := by
  have hlex : lexLt (runFileName i) (runFileName j) = true := by
    unfold runFileName
    rw [List.append_assoc, List.append_assoc, lexLt_append_same]
    exact lexLt_append_of_lt _ _ _ _
      (by rw [format04_eq_digits i (by omega), format04_eq_digits j (by omega)]
          rfl)
      (format04_lexLt i j hij (by omega))
  exact ⟨hlex, ne_of_lexLt _ _ hlex⟩

/-- Witness for C5: within a 10000-job sweep, `run_0003.slurm` sorts
strictly before `run_0004.slurm`. -/
theorem claim_C5_witness :
    lexLt (runFileName 3) (runFileName 4) = true
      ∧ runFileName 3 ≠ runFileName 4 :=
  claim_C5 10000 3 4 (by decide) (by decide) (by decide)

/-! ## TemplateRenderer (claim C6), experiment_generator.py lines 85-92 -/

/-- Fuel-indexed body of Python `s.replace(pat, v)`: scan left to right,
replacing non-overlapping occurrences. -/
def replaceAux (pat v : List Char) : Nat → List Char → List Char
  | 0, s => s
  | _ + 1, [] => []
  | fuel + 1, c :: rest =>
    if pat.isPrefixOf (c :: rest) then
      v ++ replaceAux pat v fuel ((c :: rest).drop pat.length)
    else
      c :: replaceAux pat v fuel rest

/-- Python `s.replace(pat, v)` for a non-empty pattern. -/
def pyReplace (s pat v : List Char) : List Char :=
  replaceAux pat v s.length s

theorem replaceAux_fuel (pat v : List Char) (hpat : pat ≠ []) :
    ∀ f g s, s.length ≤ f → s.length ≤ g →
      replaceAux pat v f s = replaceAux pat v g s := by
  intro f
  induction f with
  | zero =>
    intro g s hf _
    have hs : s = [] := by
      cases s with
      | nil => rfl
      | cons c r => simp at hf
    subst hs
    cases g <;> rfl
  | succ f' ih =>
    intro g s hf hg
    cases s with
    | nil => cases g <;> rfl
    | cons c rest =>
      obtain ⟨g', rfl⟩ : ∃ g', g = g' + 1 := by
        cases g with
        | zero => simp at hg
        | succ g' => exact ⟨g', rfl⟩
      show (if pat.isPrefixOf (c :: rest) then
          v ++ replaceAux pat v f' ((c :: rest).drop pat.length)
        else c :: replaceAux pat v f' rest) = (if pat.isPrefixOf (c :: rest) then
          v ++ replaceAux pat v g' ((c :: rest).drop pat.length)
        else c :: replaceAux pat v g' rest)
      have hplen : 1 ≤ pat.length := by
        cases pat with
        | nil => exact absurd rfl hpat
        | cons p pr => simp
      simp only [List.length_cons] at hf hg
      by_cases hpre : pat.isPrefixOf (c :: rest)
      · have hb1 : ((c :: rest).drop pat.length).length ≤ f' := by
          simp only [List.length_drop, List.length_cons]
          omega
        have hb2 : ((c :: rest).drop pat.length).length ≤ g' := by
          simp only [List.length_drop, List.length_cons]
          omega
        rw [if_pos hpre, if_pos hpre, ih g' _ hb1 hb2]
      · rw [if_neg hpre, if_neg hpre,
          ih g' rest (by omega) (by omega)]

theorem pyReplace_nil (pat v : List Char) : pyReplace [] pat v = [] := rfl

theorem pyReplace_no_match (c : Char) (rest pat v : List Char)
    (h : pat.isPrefixOf (c :: rest) = false) :
    pyReplace (c :: rest) pat v = c :: pyReplace rest pat v := by
  show replaceAux pat v (rest.length + 1) (c :: rest) = _
  show (if pat.isPrefixOf (c :: rest) then
      v ++ replaceAux pat v rest.length ((c :: rest).drop pat.length)
    else c :: replaceAux pat v rest.length rest) = _
  rw [h]
  simp [pyReplace]

theorem pyReplace_match (pat t v : List Char) (hpat : pat ≠ []) :
    pyReplace (pat ++ t) pat v = v ++ pyReplace t pat v := by
  obtain ⟨p0, pr, rfl⟩ : ∃ p0 pr, pat = p0 :: pr := by
    cases pat with
    | nil => exact absurd rfl hpat
    | cons p0 pr => exact ⟨p0, pr, rfl⟩
  show replaceAux (p0 :: pr) v ((p0 :: pr ++ t).length) (p0 :: (pr ++ t)) = _
  show (if (p0 :: pr).isPrefixOf (p0 :: (pr ++ t)) then
      v ++ replaceAux (p0 :: pr) v (pr ++ t).length
        ((p0 :: (pr ++ t)).drop (p0 :: pr).length)
    else _) = _
  have hcond : (p0 :: pr).isPrefixOf (p0 :: (pr ++ t)) = true := by
    rw [List.isPrefixOf_iff_prefix]
    exact List.prefix_append (p0 :: pr) t
  rw [hcond]
  simp only [if_true]
  have hdrop : (p0 :: (pr ++ t)).drop (p0 :: pr).length = t := by
    show ((p0 :: pr) ++ t).drop (p0 :: pr).length = t
    exact List.drop_left _ _
  rw [hdrop, replaceAux_fuel (p0 :: pr) v (by simp) (pr ++ t).length t.length t
    (by simp) le_rfl]
  rfl

/-- The pattern `"{{" + key + "}}"` used by `render_slurm_template`. -/
def tplPattern (k : List Char) : List Char :=
  '{' :: '{' :: (k ++ ['}', '}'])

theorem tplPattern_ne_nil (k : List Char) : tplPattern k ≠ [] := by
  simp [tplPattern]

theorem isPrefixOf_cons_false (pat : List Char) (p0 : Char) (pr : List Char)
    (c : Char) (ys : List Char) (hpat : pat = p0 :: pr) (hne : p0 ≠ c) :
    pat.isPrefixOf (c :: ys) = false := by
  subst hpat
  show (p0 == c && pr.isPrefixOf ys) = false
  rw [beq_eq_false_iff_ne.mpr hne, Bool.false_and]

theorem pyReplace_skip_lit (k v : List Char) :
    ∀ s r : List Char, '{' ∉ s →
      pyReplace (s ++ r) (tplPattern k) v = s ++ pyReplace r (tplPattern k) v := by
  intro s
  induction s with
  | nil => intro r _; rfl
  | cons c s' ih =>
    intro r hs
    have hc : c ≠ '{' := by
      intro he
      exact hs (by rw [he]; exact List.mem_cons_self _ _)
    have hs' : '{' ∉ s' := fun hm => hs (List.mem_cons_of_mem _ hm)
    rw [List.cons_append,
      pyReplace_no_match c (s' ++ r) (tplPattern k) v
        (isPrefixOf_cons_false _ '{' ('{' :: (k ++ ['}', '}'])) c _ rfl
          (Ne.symm hc)),
      ih r hs', List.cons_append]

/-- A key is usable as a placeholder name: non-empty and brace-free. -/
def keyOk (k : List Char) : Prop := k ≠ [] ∧ '{' ∉ k ∧ '}' ∉ k

theorem closeBrace_prefix_eq : ∀ k n r : List Char, '}' ∉ k → '}' ∉ n →
    (k ++ ['}', '}']) <+: ((n ++ ['}', '}']) ++ r) → k = n := by
  intro k
  induction k with
  | nil =>
    intro n r _ hn hp
    cases n with
    | nil => rfl
    | cons n0 n' =>
      simp only [List.nil_append, List.cons_append] at hp
      have h0 := (List.cons_prefix_cons.mp hp).1
      have : n0 ≠ '}' := fun he => hn (by rw [← he]; exact List.mem_cons_self _ _)
      exact absurd h0.symm this
  | cons k0 k' ih =>
    intro n r hk hn hp
    cases n with
    | nil =>
      simp only [List.nil_append, List.cons_append] at hp
      have h0 := (List.cons_prefix_cons.mp hp).1
      have : k0 ≠ '}' := fun he => hk (by rw [← he]; exact List.mem_cons_self _ _)
      exact absurd h0 this
    | cons n0 n' =>
      simp only [List.cons_append] at hp
      obtain ⟨h0, hrest⟩ := List.cons_prefix_cons.mp hp
      have hk' : '}' ∉ k' := fun hm => hk (List.mem_cons_of_mem _ hm)
      have hn' : '}' ∉ n' := fun hm => hn (List.mem_cons_of_mem _ hm)
      rw [h0, ih n' r hk' hn' (by simpa using hrest)]

theorem tplPattern_prefix_eq (k n r : List Char) (hk : '}' ∉ k) (hn : '}' ∉ n)
    (hp : (tplPattern k).isPrefixOf (tplPattern n ++ r) = true) : k = n := by
  rw [List.isPrefixOf_iff_prefix] at hp
  simp only [tplPattern, List.cons_append] at hp
  obtain ⟨-, hp⟩ := List.cons_prefix_cons.mp hp
  obtain ⟨-, hp⟩ := List.cons_prefix_cons.mp hp
  exact closeBrace_prefix_eq k n r hk hn hp

theorem pyReplace_skip_ph (k n v r : List Char) (hkO : keyOk k) (hnO : keyOk n)
    (hne : n ≠ k) :
    pyReplace (tplPattern n ++ r) (tplPattern k) v
      = tplPattern n ++ pyReplace r (tplPattern k) v := by
  obtain ⟨hkne, hkb, hkc⟩ := hkO
  obtain ⟨hnne, hnb, hnc⟩ := hnO
  obtain ⟨n0, n', rfl⟩ : ∃ n0 n', n = n0 :: n' := by
    cases n with
    | nil => exact absurd rfl hnne
    | cons n0 n' => exact ⟨n0, n', rfl⟩
  have hn0 : n0 ≠ '{' := fun he => hnb (by rw [← he]; exact List.mem_cons_self _ _)
  have hn'b : '{' ∉ n' := fun hm => hnb (List.mem_cons_of_mem _ hm)
  have h0 : (tplPattern k).isPrefixOf (tplPattern (n0 :: n') ++ r) = false := by
    cases h : (tplPattern k).isPrefixOf (tplPattern (n0 :: n') ++ r) with
    | false => rfl
    | true =>
      exact absurd (tplPattern_prefix_eq k (n0 :: n') r hkc hnc h).symm hne
  have hshape : tplPattern (n0 :: n') ++ r
      = '{' :: ('{' :: (n0 :: (n' ++ ('}' :: ('}' :: r))))) := by
    simp [tplPattern]
  rw [hshape] at h0
  have h1 : (tplPattern k).isPrefixOf ('{' :: (n0 :: (n' ++ ('}' :: ('}' :: r)))))
      = false := by
    show (('{' : Char) == '{'
      && (('{' :: (k ++ ['}', '}'])).isPrefixOf (n0 :: (n' ++ ('}' :: ('}' :: r))))))
      = false
    rw [isPrefixOf_cons_false ('{' :: (k ++ ['}', '}'])) '{' (k ++ ['}', '}'])
      n0 _ rfl (Ne.symm hn0), Bool.and_false]
  rw [hshape,
    pyReplace_no_match _ _ _ _ h0,
    pyReplace_no_match _ _ _ _ h1,
    show n0 :: (n' ++ ('}' :: ('}' :: r))) = (n0 :: n') ++ ('}' :: ('}' :: r))
      from by simp,
    pyReplace_skip_lit k v (n0 :: n') ('}' :: ('}' :: r)) hnb,
    pyReplace_no_match _ _ _ _
      (isPrefixOf_cons_false (tplPattern k) '{' ('{' :: (k ++ ['}', '}'])) '}' _
        rfl (by decide)),
    pyReplace_no_match _ _ _ _
      (isPrefixOf_cons_false (tplPattern k) '{' ('{' :: (k ++ ['}', '}'])) '}' _
        rfl (by decide))]
  simp [tplPattern]

instance (k : List Char) : Decidable (keyOk k) :=
  inferInstanceAs (Decidable (k ≠ [] ∧ '{' ∉ k ∧ '}' ∉ k))

/-- A structured template: literal chunks interleaved with placeholders. -/
inductive TplItem
  | lit (s : List Char)
  | ph (name : List Char)
  deriving DecidableEq, Repr

/-- The template text denoted by a structured template. -/
def tplFlatten : List TplItem → List Char
  | [] => []
  | .lit s :: rest => s ++ tplFlatten rest
  | .ph n :: rest => tplPattern n ++ tplFlatten rest

/-- Well-formed item: literal chunks have no stray `{`, placeholder
names are non-empty and brace-free. -/
def itemOk : TplItem → Prop
  | .lit s => '{' ∉ s
  | .ph n => keyOk n

instance (it : TplItem) : Decidable (itemOk it) :=
  match it with
  | .lit s => inferInstanceAs (Decidable ('{' ∉ s))
  | .ph n => inferInstanceAs (Decidable (keyOk n))

/-- Well-formed template: no stray delimiters. -/
def tplOk (T : List TplItem) : Prop := ∀ it ∈ T, itemOk it

/-- Well-formed parameter mapping: keys are usable placeholder names and
values contain no placeholder delimiter. -/
def paramsOk (m : List (List Char × List Char)) : Prop :=
  ∀ p ∈ m, keyOk p.1 ∧ '{' ∉ p.2

/-- `render_slurm_template` (experiment_generator.py, lines 85-92): fold
`rendered = rendered.replace("{{" + key + "}}", str(value))` over the
parameter mapping in iteration order.  Values are taken in their `str()`
form. -/
def render_slurm_template (template_content : List Char)
    (slurm_params : List (List Char × List Char)) : List Char :=
  slurm_params.foldl (fun acc kv => pyReplace acc (tplPattern kv.1) kv.2)
    template_content

/-- Specification-side substitution of one item: a mapped placeholder
becomes its value (string form), an unmapped placeholder stays verbatim,
a literal chunk is untouched. -/
def substItem (m : List (List Char × List Char)) : TplItem → TplItem
  | .lit s => .lit s
  | .ph n =>
    match m.lookup n with
    | some v => .lit v
    | none => .ph n

/-- Specification-side (simultaneous) rendering, written from the
claim's words: every occurrence of each mapped placeholder is replaced
by the value's string form, every unmapped placeholder is left verbatim,
nothing else changes. -/
def renderSpec (m : List (List Char × List Char)) (T : List TplItem) :
    List Char :=
  tplFlatten (T.map (substItem m))

/-- Substitution of a single key on the structured template. -/
def astSubst1 (k v : List Char) : TplItem → TplItem
  | .lit s => .lit s
  | .ph n => if n = k then .lit v else .ph n

theorem pyReplace_flatten (k v : List Char) (hk : keyOk k) :
    ∀ T : List TplItem, tplOk T →
      pyReplace (tplFlatten T) (tplPattern k) v
        = tplFlatten (T.map (astSubst1 k v)) := by
  intro T
  induction T with
  | nil => intro _; rfl
  | cons it T' ih =>
    intro hok
    have hit := hok it (List.mem_cons_self _ _)
    have hT' : tplOk T' := fun x hx => hok x (List.mem_cons_of_mem _ hx)
    cases it with
    | lit s =>
      show pyReplace (s ++ tplFlatten T') (tplPattern k) v
        = tplFlatten (.lit s :: T'.map (astSubst1 k v))
      rw [pyReplace_skip_lit k v s _ hit, ih hT']
      rfl
    | ph n =>
      by_cases hn : n = k
      · subst hn
        show pyReplace (tplPattern n ++ tplFlatten T') (tplPattern n) v = _
        rw [pyReplace_match (tplPattern n) _ v (tplPattern_ne_nil n), ih hT']
        simp [astSubst1, tplFlatten]
      · show pyReplace (tplPattern n ++ tplFlatten T') (tplPattern k) v = _
        rw [pyReplace_skip_ph k n v _ hk hit hn, ih hT']
        simp [astSubst1, hn, tplFlatten]

theorem astSubst1_ok (k v : List Char) (hv : '{' ∉ v) (it : TplItem)
    (h : itemOk it) : itemOk (astSubst1 k v it) := by
  cases it with
  | lit s => exact h
  | ph n =>
    by_cases hn : n = k
    · subst hn
      show itemOk (if n = n then TplItem.lit v else .ph n)
      rw [if_pos rfl]
      exact hv
    · show itemOk (if n = k then TplItem.lit v else .ph n)
      rw [if_neg hn]
      exact h

theorem substItem_cons (e : List Char × List Char)
    (m' : List (List Char × List Char)) (it : TplItem) :
    substItem (e :: m') it = substItem m' (astSubst1 e.1 e.2 it) := by
  obtain ⟨k1, v1⟩ := e
  cases it with
  | lit s => rfl
  | ph n =>
    by_cases hn : n = k1
    · subst hn
      show (match List.lookup n ((n, v1) :: m') with
        | some v => TplItem.lit v | none => .ph n)
        = substItem m' (if n = n then TplItem.lit v1 else .ph n)
      rw [List.lookup_cons_self, if_pos rfl]
      rfl
    · show (match List.lookup n ((k1, v1) :: m') with
        | some v => TplItem.lit v | none => .ph n)
        = substItem m' (if n = k1 then TplItem.lit v1 else .ph n)
      rw [List.lookup_cons, if_neg hn]
      simp only [beq_eq_false_iff_ne.mpr hn, cond_false]
      rfl

theorem render_slurm_template_spec (m : List (List Char × List Char)) :
    ∀ T : List TplItem, tplOk T → paramsOk m →
      render_slurm_template (tplFlatten T) m = renderSpec m T := by
  induction m with
  | nil =>
    intro T hT _
    show tplFlatten T = tplFlatten (T.map (substItem []))
    have hid : T.map (substItem []) = T := by
      have : ∀ it ∈ T, substItem [] it = it := by
        intro it _
        cases it <;> rfl
      rw [List.map_congr_left this]
      exact List.map_id T
    rw [hid]
  | cons e m' ih =>
    intro T hT hm
    have he := hm e (List.mem_cons_self _ _)
    have hm' : paramsOk m' := fun p hp => hm p (List.mem_cons_of_mem _ hp)
    show render_slurm_template
        (pyReplace (tplFlatten T) (tplPattern e.1) e.2) m'
      = renderSpec (e :: m') T
    rw [pyReplace_flatten e.1 e.2 he.1 T hT]
    have hok' : tplOk (T.map (astSubst1 e.1 e.2)) := by
      intro it hit
      rw [List.mem_map] at hit
      obtain ⟨it0, h0, rfl⟩ := hit
      exact astSubst1_ok _ _ he.2 it0 (hT it0 h0)
    rw [ih (T.map (astSubst1 e.1 e.2)) hok' hm']
    show tplFlatten ((T.map (astSubst1 e.1 e.2)).map (substItem m'))
      = tplFlatten (T.map (substItem (e :: m')))
    rw [List.map_map]
    exact congrArg tplFlatten
      (List.map_congr_left (fun it _ => (substItem_cons e m' it).symm))


instance (T : List TplItem) : Decidable (tplOk T) :=
  inferInstanceAs (Decidable (∀ it ∈ T, itemOk it))

instance (m : List (List Char × List Char)) : Decidable (paramsOk m) :=
  inferInstanceAs (Decidable (∀ p ∈ m, keyOk p.1 ∧ '{' ∉ p.2))

/-- C6 (amended) — For every well-formed template (every `{` is part of
a well-formed placeholder `{{name}}` with a non-empty brace-free name:
no stray delimiters) and every mapping whose keys are well-formed names
and whose values contain no `{`, rendering replaces every occurrence of
each mapped placeholder with the value's string form and leaves every
placeholder whose name is not in the mapping verbatim, with no other
part of the template changed.  Both restrictions are necessary:
substitution is sequential in mapping iteration order, so a mapped
value containing a later key's placeholder is itself substituted, and a
stray delimiter can fuse with an adjacent substituted value into a new
placeholder occurrence — see the counterexample for both failures. -/
theorem claim_C6 (m : List (List Char × List Char)) (T : List TplItem)
    (hT : tplOk T) (hm : paramsOk m) :
    render_slurm_template (tplFlatten T) m = renderSpec m T :=
  render_slurm_template_spec m T hT hm

/-- C6 (counterexample) — The claim as stated fails, and both
restrictions of the amendment are forced.  First, a mapped value
containing a later key's placeholder: for the template `{{A}}` and the
mapping `A ↦ "{{B}}", B ↦ "x"` (in that order), the claim requires the
output `{{B}}` (the occurrence of the mapped placeholder `{{A}}`
replaced by the string form of its value), but the sequential
`str.replace` loop produces `x`.  Second, a stray delimiter in the
template even with brace-free values: for the template text `{{{{A}}`
(a stray `{{` before the placeholder `{{A}}`) and the mapping
`A ↦ "B}}", B ↦ "x"` — no value contains `{` — the claim requires
`{{B}}` (the template contains one occurrence of `{{A}}` and none of
`{{B}}`), but substituting `A` fuses the stray delimiter with the
inserted value into a new `{{B}}` occurrence, which the next
`str.replace` rewrites, so the loop produces `x`. -/
theorem claim_C6_counterexample :
    (render_slurm_template (tplFlatten [TplItem.ph ['A']])
        [(['A'], tplPattern ['B']), (['B'], ['x'])]
      = ['x'])
    ∧ renderSpec [(['A'], tplPattern ['B']), (['B'], ['x'])] [TplItem.ph ['A']]
      = tplPattern ['B']
    ∧ (render_slurm_template (tplFlatten [TplItem.ph ['A']])
        [(['A'], tplPattern ['B']), (['B'], ['x'])]
      ≠ renderSpec [(['A'], tplPattern ['B']), (['B'], ['x'])] [TplItem.ph ['A']])
    ∧ (render_slurm_template ['{', '{', '{', '{', 'A', '}', '}']
        [(['A'], ['B', '}', '}']), (['B'], ['x'])]
      = ['x'])
    ∧ pyReplace ['{', '{', '{', '{', 'A', '}', '}'] (tplPattern ['A'])
        ['B', '}', '}']
      = tplPattern ['B']
    ∧ (render_slurm_template ['{', '{', '{', '{', 'A', '}', '}']
        [(['A'], ['B', '}', '}']), (['B'], ['x'])]
      ≠ tplPattern ['B']) := by
  refine ⟨?_, ?_, ?_, ?_, ?_, ?_⟩ <;> decide

/-- Witness for C6 (amended) at the template `a {{J}}-{{X}}` with the
mapping `J ↦ "j1"`: the mapped placeholder is replaced, the unmapped
placeholder `{{X}}` stays verbatim. -/
theorem claim_C6_witness :
    render_slurm_template
        (tplFlatten [TplItem.lit ['a', ' '], TplItem.ph ['J'],
          TplItem.lit ['-'], TplItem.ph ['X']])
        [(['J'], ['j', '1'])]
      = ['a', ' ', 'j', '1', '-', '{', '{', 'X', '}', '}'] := by
  have h := claim_C6 [(['J'], ['j', '1'])]
    [TplItem.lit ['a', ' '], TplItem.ph ['J'],
     TplItem.lit ['-'], TplItem.ph ['X']]
    (by decide) (by decide)
  rw [h]
  decide
